import Mathlib

/-!
Shallow embedding of the cursor-based pagination core of the
`graphql-starter` crates, together with proofs about the properties the
specification states for it.

Conventions of the embedding:
* Rust `usize` values are modelled as `Nat` (the only comparison against a
  negative literal in the source, `first < 0` on a `usize`, is kept verbatim
  and is vacuous in both worlds).
* Byte vectors (`Vec<u8>`) are `List Nat` whose elements are below 256, and
  strings handed to cursor decoding are lists of character codes.
* Fallible Rust functions returning `Result<T, Box<Error>>` become
  `Except Err T` for an explicit error model `Err`.
-/

namespace GraphqlStarter

/-! ### Base64 (URL-safe alphabet, no padding)

Modelled from the `base64` crate's `BASE64_URL_SAFE_NO_PAD` engine used by
`OpaqueCursor::encode`/`OpaqueCursor::decode` in
`graphql-starter/src/pagination/cursor.rs`: the URL-safe alphabet
(`A-Z a-z 0-9 - _`), no padding characters, and canonical decoding (inputs
whose length is 1 mod 4 or whose trailing bits are non-zero are rejected). -/

/-- Maps a sextet (a value below 64) to its URL-safe base64 alphabet code. -/
def b64ToChar (s : Nat) : Nat :=
  if s < 26 then 65 + s            -- 'A'..'Z'
  else if s < 52 then 97 + (s - 26) -- 'a'..'z'
  else if s < 62 then 48 + (s - 52) -- '0'..'9'
  else if s = 62 then 45            -- '-'
  else 95                           -- '_'

/-- Maps a character code back to its sextet; `none` for codes outside the
URL-safe alphabet. -/
def b64FromChar (c : Nat) : Option Nat :=
  if 65 ≤ c ∧ c ≤ 90 then some (c - 65)
  else if 97 ≤ c ∧ c ≤ 122 then some (26 + (c - 97))
  else if 48 ≤ c ∧ c ≤ 57 then some (52 + (c - 48))
  else if c = 45 then some 62
  else if c = 95 then some 63
  else none

/-- Splits a byte list into sextets, emitting 4 sextets per 3-byte group and
a shorter, zero-padded tail group for 1 or 2 trailing bytes. -/
def b64EncodeSextets : List Nat → List Nat
  | [] => []
  | [b1] => [b1 / 4, (b1 % 4) * 16]
  | [b1, b2] => [b1 / 4, (b1 % 4) * 16 + b2 / 16, (b2 % 16) * 4]
  | b1 :: b2 :: b3 :: rest =>
      b1 / 4 :: ((b1 % 4) * 16 + b2 / 16) :: ((b2 % 16) * 4 + b3 / 64) :: b3 % 64 ::
        b64EncodeSextets rest

/-- Reassembles bytes from sextets; rejects group lengths of 1 and non-zero
trailing bits, as the strict decoding engine does. -/
def b64DecodeSextets : List Nat → Option (List Nat)
  | [] => some []
  | [_] => none
  | [c1, c2] => if c2 % 16 = 0 then some [c1 * 4 + c2 / 16] else none
  | [c1, c2, c3] =>
      if c3 % 4 = 0 then some [c1 * 4 + c2 / 16, (c2 % 16) * 16 + c3 / 4] else none
  | c1 :: c2 :: c3 :: c4 :: rest =>
      (b64DecodeSextets rest).map
        (fun bs => (c1 * 4 + c2 / 16) :: ((c2 % 16) * 16 + c3 / 4) :: ((c3 % 4) * 64 + c4) :: bs)

/-- `BASE64_URL_SAFE_NO_PAD.encode`: bytes to character codes. -/
def b64Encode (bytes : List Nat) : List Nat :=
  (b64EncodeSextets bytes).map b64ToChar

/-- `BASE64_URL_SAFE_NO_PAD.decode`: character codes back to bytes, `none` on
any malformed input. -/
def b64Decode (chars : List Nat) : Option (List Nat) :=
  (chars.mapM b64FromChar).bind b64DecodeSextets

/-- Every sextet produced from bytes below 256 is below 64. -/
theorem b64EncodeSextets_lt (bytes : List Nat) (h : ∀ b ∈ bytes, b < 256) :
    ∀ s ∈ b64EncodeSextets bytes, s < 64 := by
  induction bytes using b64EncodeSextets.induct with
  | case1 => simp [b64EncodeSextets]
  | case2 b1 =>
      have hb1 := h b1 (by simp)
      simp only [b64EncodeSextets, List.mem_cons, List.not_mem_nil, or_false]
      rintro s (rfl | rfl) <;> omega
  | case3 b1 b2 =>
      have hb1 := h b1 (by simp)
      have hb2 := h b2 (by simp)
      simp only [b64EncodeSextets, List.mem_cons, List.not_mem_nil, or_false]
      rintro s (rfl | rfl | rfl) <;> omega
  | case4 b1 b2 b3 rest ih =>
      have hb1 := h b1 (by simp)
      have hb2 := h b2 (by simp)
      have hb3 := h b3 (by simp)
      have hrest : ∀ b ∈ rest, b < 256 := fun b hb => h b (by simp [hb])
      simp only [b64EncodeSextets, List.mem_cons]
      rintro s (rfl | rfl | rfl | rfl | hs)
      · omega
      · omega
      · omega
      · omega
      · exact ih hrest s hs

/-- The alphabet maps are mutually inverse on sextets. -/
theorem b64FromChar_b64ToChar : ∀ s < 64, b64FromChar (b64ToChar s) = some s := by
  decide

/-- Character translation of an encoded sextet stream is loss-free. -/
theorem mapM_b64FromChar (sextets : List Nat) (h : ∀ s ∈ sextets, s < 64) :
    (sextets.map b64ToChar).mapM b64FromChar = some sextets := by
  induction sextets with
  | nil => rfl
  | cons s rest ih =>
      have hs : s < 64 := h s (by simp)
      have hrest : ∀ x ∈ rest, x < 64 := fun x hx => h x (by simp [hx])
      simp only [List.map_cons, List.mapM_cons, b64FromChar_b64ToChar s hs,
        ih hrest, Option.pure_def, Option.bind_eq_bind, Option.bind_some]
      rfl

/-- Sextet-level round trip for bytes below 256. -/
theorem b64DecodeSextets_b64EncodeSextets (bytes : List Nat)
    (h : ∀ b ∈ bytes, b < 256) :
    b64DecodeSextets (b64EncodeSextets bytes) = some bytes := by
  induction bytes using b64EncodeSextets.induct with
  | case1 => simp [b64EncodeSextets, b64DecodeSextets]
  | case2 b1 =>
      have hb1 := h b1 (by simp)
      have e1 : b1 / 4 * 4 + b1 % 4 * 16 / 16 = b1 := by omega
      simp only [b64EncodeSextets, b64DecodeSextets]
      rw [if_pos (by omega : b1 % 4 * 16 % 16 = 0), e1]
  | case3 b1 b2 =>
      have hb1 := h b1 (by simp)
      have hb2 := h b2 (by simp)
      have e1 : b1 / 4 * 4 + (b1 % 4 * 16 + b2 / 16) / 16 = b1 := by omega
      have e2 : (b1 % 4 * 16 + b2 / 16) % 16 * 16 + b2 % 16 * 4 / 4 = b2 := by omega
      simp only [b64EncodeSextets, b64DecodeSextets]
      rw [if_pos (by omega : b2 % 16 * 4 % 4 = 0), e1, e2]
  | case4 b1 b2 b3 rest ih =>
      have hb1 := h b1 (by simp)
      have hb2 := h b2 (by simp)
      have hb3 := h b3 (by simp)
      have hrest : ∀ b ∈ rest, b < 256 := fun b hb => h b (by simp [hb])
      have e1 : b1 / 4 * 4 + (b1 % 4 * 16 + b2 / 16) / 16 = b1 := by omega
      have e2 : (b1 % 4 * 16 + b2 / 16) % 16 * 16 + (b2 % 16 * 4 + b3 / 64) / 4 = b2 := by
        omega
      have e3 : (b2 % 16 * 4 + b3 / 64) % 4 * 64 + b3 % 64 = b3 := by omega
      simp only [b64EncodeSextets, b64DecodeSextets, ih hrest, e1, e2, e3]
      rfl

/-- Full base64 round trip: decoding an encoding recovers the bytes. -/
theorem b64Decode_b64Encode (bytes : List Nat) (h : ∀ b ∈ bytes, b < 256) :
    b64Decode (b64Encode bytes) = some bytes := by
  unfold b64Decode b64Encode
  rw [mapM_b64FromChar _ (b64EncodeSextets_lt bytes h)]
  exact b64DecodeSextets_b64EncodeSextets bytes h

/-! ### JSON serialization of `usize` values

Modelled from `serde_json::to_vec`/`serde_json::from_slice` as used by
`OpaqueCursor::new`/`OpaqueCursor::as_data` on `usize` payloads in
`graphql-starter/src/pagination/page.rs`: a non-negative integer is rendered
as its plain decimal ASCII digits, and parsing accepts exactly a non-empty
all-digit string with no redundant leading zero. -/

/-- Little-endian decimal digits computed with explicit fuel, so that the
definition is structurally recursive and kernel-reducible. -/
def decDigitsAux : Nat → Nat → List Nat
  | _, 0 => []
  | 0, _ + 1 => []
  | fuel + 1, n + 1 => (n + 1) % 10 :: decDigitsAux fuel ((n + 1) / 10)

/-- With enough fuel, `decDigitsAux` agrees with `Nat.digits 10`. -/
theorem decDigitsAux_eq_digits : ∀ fuel n, n ≤ fuel → decDigitsAux fuel n = Nat.digits 10 n := by
  intro fuel
  induction fuel with
  | zero => intro n hn; interval_cases n; simp [decDigitsAux]
  | succ fuel ih =>
      intro n hn
      match n with
      | 0 => simp [decDigitsAux]
      | m + 1 =>
          rw [Nat.digits_def' (by norm_num : 1 < 10) (Nat.succ_pos m)]
          simp only [decDigitsAux]
          rw [ih ((m + 1) / 10) (by omega)]

/-- Renders a natural number as its decimal ASCII bytes (`serde_json::to_vec`
on a `usize`). -/
def natToJsonBytes (n : Nat) : List Nat :=
  if n = 0 then [48] else (decDigitsAux n n).reverse.map (· + 48)

/-- The rendering agrees with the `Nat.digits`-based description. -/
theorem natToJsonBytes_eq_digits (n : Nat) :
    natToJsonBytes n = if n = 0 then [48] else (Nat.digits 10 n).reverse.map (· + 48) := by
  unfold natToJsonBytes
  rw [decDigitsAux_eq_digits n n le_rfl]

/-- Parses decimal ASCII bytes back into a natural number
(`serde_json::from_slice::<usize>`); `none` on empty input, non-digit bytes
or a redundant leading zero. -/
def jsonBytesToNat (bs : List Nat) : Option Nat :=
  if bs ≠ [] ∧ (∀ d ∈ bs, 48 ≤ d ∧ d ≤ 57) ∧ (bs.head? = some 48 → bs = [48]) then
    some (Nat.ofDigits 10 ((bs.map (· - 48)).reverse))
  else none

/-- Decimal round trip: parsing a rendering recovers the number. -/
theorem jsonBytesToNat_natToJsonBytes (n : Nat) :
    jsonBytesToNat (natToJsonBytes n) = some n := by
  rw [natToJsonBytes_eq_digits]
  rcases eq_or_ne n 0 with rfl | hn
  · decide
  · have hne : Nat.digits 10 n ≠ [] := Nat.digits_ne_nil_iff_ne_zero.mpr hn
    have hdig : ∀ d ∈ Nat.digits 10 n, d < 10 :=
      fun d hd => Nat.digits_lt_base (by norm_num) hd
    unfold jsonBytesToNat
    rw [if_neg hn, if_pos]
    · congr 1
      have : ((Nat.digits 10 n).reverse.map (· + 48)).map (· - 48) =
          (Nat.digits 10 n).reverse := by
        rw [List.map_map]
        simp only [Function.comp_def, Nat.add_sub_cancel, List.map_id']
      rw [this, List.reverse_reverse, Nat.ofDigits_digits]
    · refine ⟨by simpa using hne, ?_, ?_⟩
      · intro d hd
        simp only [List.mem_map, List.mem_reverse] at hd
        obtain ⟨d0, hd0, rfl⟩ := hd
        have := hdig d0 hd0
        omega
      · intro hhead
        exfalso
        have hlast : (Nat.digits 10 n).getLast hne ≠ 0 :=
          Nat.getLast_digit_ne_zero 10 hn
        rw [List.head?_map, List.head?_reverse, List.getLast?_eq_getLast _ hne] at hhead
        simp only [Option.map_some', Option.some.injEq] at hhead
        exact hlast (by omega)

/-- Equality of `Except` values is decidable when it is on both sides. -/
instance {ε : Type u} {α : Type v} [DecidableEq ε] [DecidableEq α] :
    DecidableEq (Except ε α) := fun x y =>
  match x, y with
  | .ok a, .ok b => decidable_of_iff (a = b) (by simp)
  | .error e, .error f => decidable_of_iff (e = f) (by simp)
  | .ok _, .error _ => .isFalse (fun h => Except.noConfusion h)
  | .error _, .ok _ => .isFalse (fun h => Except.noConfusion h)

/-! ### Error model

From `graphql-starter/src/error` and `graphql-starter/src/pagination`:
an error is either `Error::new(code)` for a pagination error code, or
`Error::internal(reason)` (as produced by `map_to_internal_err`).
`PageErrorCode` lists the codes that `pagination/page.rs` and
`pagination/cursor.rs` construct; `errorRsVariants` lists, separately, the
variants that the `PaginationErrorCode` enum in `pagination/error.rs`
actually declares. -/

/-- Pagination error codes as constructed by `page.rs`/`cursor.rs`. -/
inductive PageErrorCode where
  | pageMissing
  | pageNegativeInput (field : String)
  | pageFirstAndLast
  | pageAfterAndBefore
  | pageForwardWithBefore
  | pageBackwardWithAfter
  | pageExceedsLimit (field : String) (max : Nat)
  | pageInvalidCursor
deriving DecidableEq

/-- Variant names declared by the `PaginationErrorCode` enum in
`pagination/error.rs`, in declaration order; every one of them carries
`status = StatusCode::BAD_REQUEST`. -/
def errorRsVariants : List String :=
  ["PageMissing", "PageNegativeInput", "PageFirstAndLast", "PageAfterAndBefore",
   "PageForwardWithBefore", "PageBackwardWithAfter", "PageInvalidCursor"]

/-- Variant name of a constructed pagination error code. -/
def PageErrorCode.variantName : PageErrorCode → String
  | .pageMissing => "PageMissing"
  | .pageNegativeInput _ => "PageNegativeInput"
  | .pageFirstAndLast => "PageFirstAndLast"
  | .pageAfterAndBefore => "PageAfterAndBefore"
  | .pageForwardWithBefore => "PageForwardWithBefore"
  | .pageBackwardWithAfter => "PageBackwardWithAfter"
  | .pageExceedsLimit _ _ => "PageExceedsLimit"
  | .pageInvalidCursor => "PageInvalidCursor"

/-- The error values the embedded code can produce: a pagination error code
wrapped by `Error::new`, or an internal error (`Error::internal`,
`map_to_internal_err`). -/
inductive Err where
  | page (code : PageErrorCode)
  | internal (reason : String)
deriving DecidableEq

/-- Whether an error is classified as an internal error rather than a
client-input (bad request) one: only `Error::internal` is; every
`PaginationErrorCode` declared in `error.rs` has status `BAD_REQUEST`. -/
def Err.isInternal : Err → Bool
  | .page _ => false
  | .internal _ => true

/-! ### OpaqueCursor (`graphql-starter/src/pagination/cursor.rs`)

`OpaqueCursor` wraps a serialized byte vector. `new` and `as_data` take the
value codec (standing for `serde_json` at the payload type) as an explicit
function argument; in the source, serialization of the payload types in use
never fails, so `new` is total here. -/

/-- Opaque cursor: a wrapped byte vector (`OpaqueCursor(Vec<u8>)`). -/
structure OpaqueCursor where
  bytes : List Nat
deriving DecidableEq

/-- `OpaqueCursor::decode`: base64-decode a character-code string; a
malformed encoding is a `PageInvalidCursor` error. -/
def OpaqueCursor.decode (cursor : List Nat) : Except Err OpaqueCursor :=
  match b64Decode cursor with
  | some data => .ok ⟨data⟩
  | none => .error (.page .pageInvalidCursor)

/-- `OpaqueCursor::encode`: base64-encode the wrapped bytes. -/
def OpaqueCursor.encode (c : OpaqueCursor) : List Nat :=
  b64Encode c.bytes

/-- `OpaqueCursor::new`: serialize a payload into a cursor, with the
serializer (`serde_json::to_vec`) passed explicitly. -/
def OpaqueCursor.new (ser : α → List Nat) (data : α) : OpaqueCursor :=
  ⟨ser data⟩

/-- `OpaqueCursor::as_data`: deserialize the wrapped bytes, with the
deserializer (`serde_json::from_slice` at the expected type) passed
explicitly; failure is a `PageInvalidCursor` error. -/
def OpaqueCursor.as_data (de : List Nat → Option α) (c : OpaqueCursor) : Except Err α :=
  match de c.bytes with
  | some v => .ok v
  | none => .error (.page .pageInvalidCursor)

/-! ### PageQuery (`graphql-starter/src/pagination/page.rs`) -/

/-- Forward page query: `ForwardPageQuery { first, after }`. -/
structure ForwardPageQuery where
  first : Nat
  after : Option OpaqueCursor
deriving DecidableEq

/-- Backward page query: `BackwardPageQuery { last, before }`. -/
structure BackwardPageQuery where
  last : Nat
  before : Option OpaqueCursor
deriving DecidableEq

/-- A validated page query, exactly one of forward or backward. -/
inductive PageQuery where
  | forward (q : ForwardPageQuery)
  | backward (q : BackwardPageQuery)
deriving DecidableEq

/-- `ForwardPageQuery::deserialize_after` with an explicit deserializer. -/
def ForwardPageQuery.deserialize_after (de : List Nat → Option α)
    (q : ForwardPageQuery) : Except Err (Option α) :=
  match q.after with
  | none => .ok none
  | some c => (c.as_data de).map some

/-- `BackwardPageQuery::deserialize_before` with an explicit deserializer. -/
def BackwardPageQuery.deserialize_before (de : List Nat → Option α)
    (q : BackwardPageQuery) : Except Err (Option α) :=
  match q.before with
  | none => .ok none
  | some c => (c.as_data de).map some

/-- `PageQuery::new`: validation of raw pagination parameters. The dead
`first < 0` / `last < 0` guards of the source (comparisons on `usize`) are
kept verbatim; the `unreachable!()` arm is modelled as an internal error. -/
def PageQuery.new (first0 last0 : Option Nat) (after before : Option OpaqueCursor)
    (default_limit max_page_size : Option Nat) : Except Err PageQuery :=
  -- Set defaults if set
  let fl : Option Nat × Option Nat :=
    match default_limit with
    | some d =>
        if first0.isNone ∧ last0.isNone then
          if before.isSome then (first0, some d) else (some d, last0)
        else (first0, last0)
    | none => (first0, last0)
  let first := fl.1
  let last := fl.2
  -- Check whether first and last values are valid
  let earlyErr : Option Err :=
    match first, last with
    | none, none => some (.page .pageMissing)
    | some f, none =>
        if f < 0 then some (.page (.pageNegativeInput "first")) else none
    | none, some l =>
        if l < 0 then some (.page (.pageNegativeInput "last")) else none
    | some f, some l =>
        if f < 0 then some (.page (.pageNegativeInput "first"))
        else if l < 0 then some (.page (.pageNegativeInput "last"))
        else some (.page .pageFirstAndLast)
  match earlyErr with
  | some e => .error e
  | none =>
    -- Check whether after and before values are valid
    if after.isSome ∧ before.isSome then .error (.page .pageAfterAndBefore)
    else
      match first, last with
      | some f, _ =>
          (match max_page_size with
           | some mx =>
               if f > mx then .error (.page (.pageExceedsLimit "first" mx))
               else if before.isSome then .error (.page .pageForwardWithBefore)
               else .ok (.forward ⟨f, after⟩)
           | none =>
               if before.isSome then .error (.page .pageForwardWithBefore)
               else .ok (.forward ⟨f, after⟩))
      | none, some l =>
          (match max_page_size with
           | some mx =>
               if l > mx then .error (.page (.pageExceedsLimit "last" mx))
               else if after.isSome then .error (.page .pageBackwardWithAfter)
               else .ok (.backward ⟨l, before⟩)
           | none =>
               if after.isSome then .error (.page .pageBackwardWithAfter)
               else .ok (.backward ⟨l, before⟩))
      | none, none => .error (.internal "unreachable")

/-- `PageQuery::decode`: filter out empty cursor strings, base64-decode the
remaining ones (malformed input is `PageInvalidCursor`), then validate via
`PageQuery::new`. Cursor strings are lists of character codes. -/
def PageQuery.decode (first last : Option Nat) (after before : Option (List Nat))
    (default_limit max_page_size : Option Nat) : Except Err PageQuery := do
  let afterC ← match (after.filter fun c => !c.isEmpty) with
    | none => pure (none : Option OpaqueCursor)
    | some s => (OpaqueCursor.decode s).map some
  let beforeC ← match (before.filter fun c => !c.isEmpty) with
    | none => pure (none : Option OpaqueCursor)
    | some s => (OpaqueCursor.decode s).map some
  PageQuery.new first last afterC beforeC default_limit max_page_size

/-! ### Page, edges and the in-memory paginator
(`graphql-starter/src/pagination/page.rs`) -/

/-- An edge in a page: `Edge { cursor, node }`. -/
structure Edge (α : Type _) where
  cursor : OpaqueCursor
  node : α
deriving DecidableEq

/-- Page information: `PageInfo`. -/
structure PageInfo where
  has_previous_page : Bool
  has_next_page : Bool
  start_cursor : Option OpaqueCursor
  end_cursor : Option OpaqueCursor
deriving DecidableEq

/-- One page of the cursor-based pagination: `Page<T>`. -/
structure Page (α : Type _) where
  page_info : PageInfo
  total_items : Option Nat
  edges : List (Edge α)
deriving DecidableEq

/-- `Page::new`: assemble a page, taking start/end cursors from the first
and last edges. -/
def Page.new (has_previous_page has_next_page : Bool) (total_items : Option Nat)
    (edges : List (Edge α)) : Page α :=
  { page_info :=
      { has_previous_page := has_previous_page
        has_next_page := has_next_page
        start_cursor := edges.head?.map (·.cursor)
        end_cursor := edges.getLast?.map (·.cursor) }
    total_items := total_items
    edges := edges }

/-- The `retain_range` helper of `page.rs`: truncate to the range's end, then
drain everything before its start (clearing when the start is out of
bounds). -/
def retain_range (items : List α) (start stop : Nat) : List α :=
  let t := items.take stop
  if start < t.length then t.drop start else []

/-- Models the edge construction of `Page::from_items`:
`items.into_iter().enumerate().map(|(idx, item)| Edge { cursor: OpaqueCursor::new(&(start + idx)), node: item })`. -/
def attachCursors (start : Nat) : List α → List (Edge α)
  | [] => []
  | x :: xs => ⟨OpaqueCursor.new natToJsonBytes start, x⟩ :: attachCursors (start + 1) xs

/-- Body of `Page::from_items` after the page fields have been retrieved:
the Relay-style windowing over the materialized items. Mirrors the source
statement for statement, including the re-binding of `items_len` to the
length of the cursor-sliced list before the final flag computation. -/
def fromItemsCore (items : List α) (first after last before : Option Nat) : Page α :=
  let items_len := items.length
  let total_items := some items_len
  -- 1.2. If after is set: out-of-range cursors return an empty, flagless page
  if ∃ a ∈ after, a ≥ items_len then Page.new false false total_items []
  -- 1.3. If before is set: a zero cursor returns an empty, flagless page
  else if ∃ b ∈ before, b = 0 then Page.new false false total_items []
  else
    let start := match after with | some a => a + 1 | none => 0
    let stop := match before with | some b => b | none => items_len
    -- 1.2.b / 1.3.b: slice to the cursor window
    let items1 := retain_range items start stop
    let items_len1 := items1.length
    match first, last with
    | some f, _ =>
        -- 2.b: keep the first `first` items, from the front
        let items2 := retain_range items1 0 (min f items_len1)
        let stop2 := start + items2.length
        Page.new (decide (start > 0)) (decide (stop2 < items_len1)) total_items
          (attachCursors start items2)
    | none, some l =>
        -- 3.b: keep the last `last` items, from the back
        let items2 := retain_range items1 (items_len1 - min l items_len1) items_len1
        let start2 := stop - items2.length
        Page.new (decide (start2 > 0)) (decide (stop < items_len1)) total_items
          (attachCursors start2 items2)
    | none, none =>
        Page.new (decide (start > 0)) (decide (stop < items_len1)) total_items
          (attachCursors start items1)

/-- `Page::from_items`: the in-memory paginator. Retrieves the page fields
(deserializing the index cursor) and runs the windowing body. -/
def Page.from_items (items : List α) (page : PageQuery) : Except Err (Page α) :=
  match page with
  | .forward f =>
      (f.deserialize_after jsonBytesToNat).map
        (fun a => fromItemsCore items (some f.first) a none none)
  | .backward b =>
      (b.deserialize_before jsonBytesToNat).map
        (fun bf => fromItemsCore items none none (some b.last) bf)

/-! ### Query-backed page assembly (`graphql-starter/src/sqlx.rs`)

The row-trimming and page construction performed by
`sqlx_query_paginated_as!` after the executor returned up to `limit + 1`
rows: drop the extra row from the head (backward) or tail (forward), set the
corresponding flag, and build the page with `total_items = None`, attaching
to each row the cursor serialized from its key tuple. -/

/-- Assembly step of `sqlx_query_paginated_as!` (lines after the fetch):
trims the over-fetched batch and builds the final page. -/
def sqlxAssemble (rows : List α) (limit : Nat) (backward : Bool)
    (ser : β → List Nat) (cursor_generator : α → β) : Page α :=
  let trimmed :=
    if rows.length > limit then
      if backward then (true, false, rows.drop 1)
      else (false, true, rows.take (rows.length - 1))
    else (false, false, rows)
  let has_previous_page := trimmed.1
  let has_next_page := trimmed.2.1
  Page.new has_previous_page has_next_page none
    (trimmed.2.2.map fun r => ⟨OpaqueCursor.new ser (cursor_generator r), r⟩)

/-- Models `serde_json::from_slice::<(usize, usize)>`: the expected-type
deserializer for a two-column cursor payload, a JSON array `[a,b]` of two
non-negative integers. -/
def jsonBytesToNatPair (bs : List Nat) : Option (Nat × Nat) :=
  if bs.head? = some 91 ∧ bs.getLast? = some 93 then
    match ((bs.drop 1).dropLast).splitOn 44 with
    | [d1, d2] => do
        let a ← jsonBytesToNat d1
        let b ← jsonBytesToNat d2
        pure (a, b)
    | _ => none
  else none

/-- Reference window bounds, modelled from the spec's §4.6 steps 1-5: `none`
when an early return applies (`after_index ≥ length` or `before_index = 0`),
otherwise `(start, end, window)` where `start`/`end` are the final bounds
after applying cursors and `first`/`last`, and `window` is the length of the
slice of step 3. -/
def refBounds (length : Nat) (after before first last : Option Nat) :
    Option (Nat × Nat × Nat) :=
  if ∃ a ∈ after, a ≥ length then none
  else if ∃ b ∈ before, b = 0 then none
  else
    let start := match after with | some a => a + 1 | none => 0
    let stop := match before with | some b => b | none => length
    let window := min stop length - start
    match first, last with
    | some f, _ => some (start, start + min f window, window)
    | none, some l => some (stop - min l window, stop, window)
    | none, none => some (start, stop, window)

/-- Repeated forward pagination over `Page::from_items`: each step requests
`first = F` after the previous page's last edge cursor (`end_cursor`), and
the chain stops at the first empty page; the nodes of all pages are
concatenated. `fuel` bounds the number of steps. -/
def forwardChainNodes (items : List α) (F : Nat) : Option OpaqueCursor → Nat → List α
  | _, 0 => []
  | aft, fuel + 1 =>
      match Page.from_items items (.forward ⟨F, aft⟩) with
      | .error _ => []
      | .ok p =>
          if p.edges.isEmpty then []
          else p.edges.map (·.node) ++ forwardChainNodes items F p.page_info.end_cursor fuel

/-! ### Query synthesizer
(`graphql-starter-macros/src/sqlx/pagination/mod.rs`)

The macro body `r#impl` combines a base query string, positional argument
expressions and a column spec into one of four (query text, argument list)
shapes handed to `expand_query!`. Argument expressions are modelled
syntactically by `RExpr`, query text by `String`. -/

/-- Syntax of the argument expressions the macro manipulates: a pre-existing
caller expression, `(e) + 1i64`, a tuple field access `e.ix`, or an integer
literal. -/
inductive RExpr where
  | arg (name : String)
  | plusOneI64 (e : RExpr)
  | tupleField (e : RExpr) (ix : Nat)
  | intLit (n : Int)
deriving DecidableEq

/-- Evaluation of the integer fragment of `RExpr` (used to state what the
limit argument evaluates to). -/
def evalIntRExpr : RExpr → Option Int
  | .intLit n => some n
  | .plusOneI64 e => (evalIntRExpr e).map (· + 1)
  | _ => none

/-- The macro input (`QueryInput`), restricted to the fields the synthesis
uses; the `record` type only passes through to `expand_query!` and is
omitted. -/
structure QueryInput where
  query : String
  arg_exprs : List RExpr
  extra_row : Bool
  columns : List (String × Bool)
  first : Option RExpr
  last : Option RExpr
  after : Option RExpr
  before : Option RExpr

/-- `columns_to_str`: joins quoted column names with their direction,
optionally reversed. -/
def columns_to_str (columns : List (String × Bool)) (reverse : Bool) : String :=
  String.intercalate ", "
    (columns.map fun c =>
      "\"" ++ c.1 ++ "\" " ++ (if (if reverse then !c.2 else c.2) then "ASC" else "DESC"))

/-- Loop body of `columns_to_filter`: walks the columns with their tuple
index, appending the cursor-value argument for each column and building the
OR-of-conjunctions filter, threading the running equality prefix. -/
def columnsToFilterGo (values : RExpr) (after : Bool) :
    List (String × Bool) → Nat → List RExpr → Option String → List String →
      String × List RExpr
  | [], _, args, _, filters => (String.intercalate " OR " filters, args)
  | (name, asc) :: rest, ix, args, prev, filters =>
      let args' := args ++ [RExpr.tupleField values ix]
      let valRef := args'.length
      let current :=
        if (asc && after) || (!asc && !after) then
          "\"" ++ name ++ "\" > $" ++ toString valRef
        else
          "\"" ++ name ++ "\" < $" ++ toString valRef
      match prev with
      | some p =>
          columnsToFilterGo values after rest (ix + 1) args'
            (some (p ++ " AND \"" ++ name ++ "\" = $" ++ toString valRef))
            (filters ++ ["(" ++ p ++ " AND " ++ current ++ ")"])
      | none =>
          columnsToFilterGo values after rest (ix + 1) args'
            (some ("\"" ++ name ++ "\" = $" ++ toString valRef))
            (filters ++ [current])

/-- `columns_to_filter`: the composite keyset filter for the given columns,
cursor tuple expression and direction; returns the filter text together with
the extended argument list. -/
def columns_to_filter (columns : List (String × Bool)) (values : RExpr)
    (after : Bool) (args : List RExpr) : String × List RExpr :=
  columnsToFilterGo values after columns 0 args none []

/-- The macro body `r#impl`: synthesizes the (query text, argument list)
pair for each of the four supported page-info shapes; `none` models the
compile error emitted for any other combination. -/
def r_impl (input : QueryInput) : Option (String × List RExpr) :=
  let query := input.query
  match input.first, input.last, input.after, input.before with
  | none, none, none, none => some (query, input.arg_exprs)
  | some first, none, none, none =>
      let args := input.arg_exprs ++
        [if input.extra_row then .plusOneI64 first else first]
      let limit := args.length
      let order := columns_to_str input.columns false
      some (query ++ " ORDER BY " ++ order ++ " LIMIT $" ++ toString limit, args)
  | some first, none, some after, none =>
      let args := input.arg_exprs ++
        [if input.extra_row then .plusOneI64 first else first]
      let limit := args.length
      let order := columns_to_str input.columns false
      let fa := columns_to_filter input.columns after true args
      some ("SELECT * FROM (" ++ query ++ ") as q WHERE " ++ fa.1 ++
        " ORDER BY " ++ order ++ " LIMIT $" ++ toString limit, fa.2)
  | none, some last, none, none =>
      let args := input.arg_exprs ++
        [if input.extra_row then .plusOneI64 last else last]
      let limit := args.length
      let order := columns_to_str input.columns false
      let order_reverse := columns_to_str input.columns true
      some ("SELECT * FROM (" ++ query ++ " ORDER BY " ++ order_reverse ++
        " LIMIT $" ++ toString limit ++ ") as q ORDER BY " ++ order, args)
  | none, some last, none, some before =>
      let args := input.arg_exprs ++
        [if input.extra_row then .plusOneI64 last else last]
      let limit := args.length
      let order := columns_to_str input.columns false
      let order_reverse := columns_to_str input.columns true
      let fa := columns_to_filter input.columns before false args
      some ("SELECT * FROM (SELECT * FROM (" ++ query ++ ") as q WHERE " ++ fa.1 ++
        " ORDER BY " ++ order_reverse ++ " LIMIT $" ++ toString limit ++
        ") as o ORDER BY " ++ order, fa.2)
  | _, _, _, _ => none

/-- Modelled from the spec: §4.4 case C ("backward, no `before`"): order by
all column directions flipped with `LIMIT L` (`L` positioned after the
existing arguments), wrap as a subquery re-ordered by the natural column
directions with no outer limit. -/
def specCaseC (query : String) (args : List RExpr) (columns : List (String × Bool))
    (extra_row : Bool) (last : RExpr) : String × List RExpr :=
  let L : RExpr := if extra_row then .plusOneI64 last else last
  let args := args ++ [L]
  let limit := args.length
  let flipped := columns.map fun c => (c.1, !c.2)
  ("SELECT * FROM (" ++ query ++ " ORDER BY " ++ columns_to_str flipped false ++
    " LIMIT $" ++ toString limit ++ ") as q ORDER BY " ++ columns_to_str columns false,
   args)

/-! ## Helper lemmas -/

/-- Every branch of the windowing body sets `total_items` to the full input
length. -/
theorem fromItemsCore_total_items {α : Type} (items : List α)
    (first after last before : Option Nat) :
    (fromItemsCore items first after last before).total_items = some items.length := by
  rcases first with _ | f <;> rcases last with _ | l <;>
    (unfold fromItemsCore; dsimp only; split_ifs <;> rfl)

/-- Every success of `Page::from_items` carries `total_items` equal to the
full input length. -/
theorem from_items_total_items {α : Type} (items : List α)
    (q : PageQuery) (p : Page α) (h : Page.from_items items q = .ok p) :
    p.total_items = some items.length := by
  rcases q with f | b
  · rcases hd : f.deserialize_after (α := Nat) jsonBytesToNat with e | a <;>
      simp only [Page.from_items, hd, Except.map] at h
    · cases h
    · cases h
      exact fromItemsCore_total_items items (some f.first) a none none
  · rcases hd : b.deserialize_before (α := Nat) jsonBytesToNat with e | bf <;>
      simp only [Page.from_items, hd, Except.map] at h
    · cases h
    · cases h
      exact fromItemsCore_total_items items none none (some b.last) bf

/-- `retain_range` is take-then-drop. -/
theorem retain_range_eq (l : List α) (s e : Nat) :
    retain_range l s e = (l.take e).drop s := by
  unfold retain_range
  dsimp only
  split_ifs with h
  · rfl
  · exact (List.drop_eq_nil_of_le (by omega)).symm

/-- Length of a retained range. -/
theorem length_retain_range (l : List α) (s e : Nat) :
    (retain_range l s e).length = min e l.length - s := by
  rw [retain_range_eq]
  simp [List.length_drop, List.length_take]

/-- The nodes of the attached edges are the items themselves. -/
theorem attachCursors_map_node (s : Nat) (l : List α) :
    (attachCursors s l).map (·.node) = l := by
  induction l generalizing s with
  | nil => rfl
  | cons x xs ih => simp [attachCursors, ih]

/-- Attaching cursors preserves emptiness. -/
theorem attachCursors_isEmpty (s : Nat) (l : List α) :
    (attachCursors s l).isEmpty = l.isEmpty := by
  cases l <;> rfl

/-- The cursor of the last attached edge encodes the index of the last
item. -/
theorem attachCursors_getLast_cursor (s : Nat) (l : List α) (h : l ≠ []) :
    (attachCursors s l).getLast?.map (·.cursor) =
      some (OpaqueCursor.new natToJsonBytes (s + l.length - 1)) := by
  induction l generalizing s with
  | nil => exact absurd rfl h
  | cons x xs ih =>
      rcases xs with _ | ⟨y, ys⟩
      · simp [attachCursors]
      · rw [show attachCursors s (x :: y :: ys) =
            ⟨OpaqueCursor.new natToJsonBytes s, x⟩ :: attachCursors (s + 1) (y :: ys) from rfl]
        rcases hc : attachCursors (s + 1) (y :: ys) with _ | ⟨z, zs⟩
        · cases hc
        · rw [List.getLast?_cons_cons, ← hc, ih (s + 1) (by simp)]
          simp only [List.length_cons, Option.some.injEq]
          congr 1
          omega

/-- `Page::from_items` on a forward query whose cursor is a serialized index
succeeds with the windowing body applied to that index. -/
theorem from_items_forward_ok {α : Type} (items : List α) (f : Nat) (a : Option Nat) :
    Page.from_items items (.forward ⟨f, a.map (OpaqueCursor.new natToJsonBytes)⟩) =
      .ok (fromItemsCore items (some f) a none none) := by
  rcases a with _ | a
  · rfl
  · simp only [Page.from_items, ForwardPageQuery.deserialize_after, OpaqueCursor.as_data,
      OpaqueCursor.new, Option.map_some', jsonBytesToNat_natToJsonBytes, Except.map]

/-- `Page::from_items` on a backward query whose cursor is a serialized
index succeeds with the windowing body applied to that index. -/
theorem from_items_backward_ok {α : Type} (items : List α) (l : Nat) (b : Option Nat) :
    Page.from_items items (.backward ⟨l, b.map (OpaqueCursor.new natToJsonBytes)⟩) =
      .ok (fromItemsCore items none none (some l) b) := by
  rcases b with _ | b
  · rfl
  · simp only [Page.from_items, BackwardPageQuery.deserialize_before, OpaqueCursor.as_data,
      OpaqueCursor.new, Option.map_some', jsonBytesToNat_natToJsonBytes, Except.map]

/-- The flags of the forward windowing body, in terms of the final reference
bounds, with the window length (not the full length) on the next-page side. -/
theorem fromItemsCore_flags_forward {α : Type} (items : List α) (f : Nat) (a : Option Nat) :
    ((fromItemsCore items (some f) a none none).page_info.has_previous_page,
     (fromItemsCore items (some f) a none none).page_info.has_next_page) =
    (match refBounds items.length a none (some f) none with
     | none => (false, false)
     | some (s, e, w) => (decide (s > 0), decide (e < w))) := by
  rcases a with _ | a
  · rw [fromItemsCore, refBounds]
    rw [if_neg (by simp), if_neg (by simp), if_neg (by simp), if_neg (by simp)]
    simp only [Page.new, length_retain_range, Prod.mk.injEq]
    refine ⟨?_, ?_⟩ <;> (first | trivial | (rw [decide_eq_decide]; omega))
  · by_cases ha : a ≥ items.length
    · rw [fromItemsCore, refBounds]
      rw [if_pos (by simp [ha]), if_pos (by simp [ha])]
      rfl
    · rw [fromItemsCore, refBounds]
      rw [if_neg (by simp [ha]), if_neg (by simp), if_neg (by simp [ha]), if_neg (by simp)]
      simp only [Page.new, length_retain_range, Prod.mk.injEq]
      refine ⟨?_, ?_⟩ <;> (first | trivial | (rw [decide_eq_decide]; omega))

/-- The flags of the backward windowing body, in terms of the final
reference bounds, with the window length (not the full length) on the
next-page side. -/
theorem fromItemsCore_flags_backward {α : Type} (items : List α) (l : Nat) (b : Option Nat) :
    ((fromItemsCore items none none (some l) b).page_info.has_previous_page,
     (fromItemsCore items none none (some l) b).page_info.has_next_page) =
    (match refBounds items.length none b none (some l) with
     | none => (false, false)
     | some (s, e, w) => (decide (s > 0), decide (e < w))) := by
  rcases b with _ | b
  · rw [fromItemsCore, refBounds]
    rw [if_neg (by simp), if_neg (by simp), if_neg (by simp), if_neg (by simp)]
    simp only [Page.new, length_retain_range, Prod.mk.injEq]
    refine ⟨?_, ?_⟩ <;> (first | trivial | (rw [decide_eq_decide]; omega))
  · by_cases hb : b = 0
    · rw [fromItemsCore, refBounds]
      rw [if_neg (by simp), if_pos (by simp [hb]), if_neg (by simp), if_pos (by simp [hb])]
      rfl
    · rw [fromItemsCore, refBounds]
      rw [if_neg (by simp), if_neg (by simp [hb]), if_neg (by simp), if_neg (by simp [hb])]
      simp only [Page.new, length_retain_range, Prod.mk.injEq]
      refine ⟨?_, ?_⟩ <;> (first | trivial | (rw [decide_eq_decide]; omega))

/-- Taking `min n (length)` is taking `n`. -/
theorem take_min_length (l : List α) (n : Nat) : l.take (min n l.length) = l.take n := by
  rcases le_total n l.length with h | h
  · rw [min_eq_left h]
  · rw [min_eq_right h, List.take_length, List.take_of_length_le h]

/-- The edges of `Page::new` are its argument. -/
theorem Page_new_edges (hp hn : Bool) (t : Option Nat) (es : List (Edge α)) :
    (Page.new hp hn t es).edges = es := rfl

/-- The end cursor of `Page::new` is the last edge's cursor. -/
theorem Page_new_end_cursor (hp hn : Bool) (t : Option Nat) (es : List (Edge α)) :
    (Page.new hp hn t es).page_info.end_cursor = es.getLast?.map (·.cursor) := rfl

/-- The forward windowing body produces the edges of
`take first` of the post-cursor suffix, with cursors from the window
start. -/
theorem fromItemsCore_forward_edges {α : Type} (items : List α) (f : Nat) (a : Option Nat) :
    (fromItemsCore items (some f) a none none).edges =
      attachCursors (match a with | some x => x + 1 | none => 0)
        ((items.drop (match a with | some x => x + 1 | none => 0)).take f) := by
  rcases a with _ | x
  · dsimp only
    rw [fromItemsCore]
    rw [if_neg (by simp), if_neg (by simp)]
    simp only [Page_new_edges]
    have h1 : retain_range items 0 items.length = items := by
      rw [retain_range_eq, List.take_length, List.drop_zero]
    rw [h1]
    have h2 : retain_range items 0 (min f items.length) = items.take f := by
      rw [retain_range_eq, List.drop_zero, take_min_length]
    rw [h2, List.drop_zero]
  · dsimp only
    by_cases hx : x ≥ items.length
    · rw [fromItemsCore, if_pos (by simp [hx])]
      rw [List.drop_eq_nil_of_le (by omega), List.take_nil]
      rfl
    · rw [fromItemsCore, if_neg (by simp [hx]), if_neg (by simp)]
      simp only [Page_new_edges]
      have h1 : retain_range items (x + 1) items.length = items.drop (x + 1) := by
        rw [retain_range_eq, List.take_length]
      rw [h1]
      have h2 : retain_range (items.drop (x + 1)) 0 (min f (items.drop (x + 1)).length) =
          (items.drop (x + 1)).take f := by
        rw [retain_range_eq, List.drop_zero, take_min_length]
      rw [h2]

/-- The end cursor of the forward windowing body comes from its last
edge. -/
theorem fromItemsCore_forward_end_cursor {α : Type} (items : List α) (f : Nat)
    (a : Option Nat) :
    (fromItemsCore items (some f) a none none).page_info.end_cursor =
      (fromItemsCore items (some f) a none none).edges.getLast?.map (·.cursor) := by
  unfold fromItemsCore
  dsimp only
  split_ifs <;> rfl

/-- Dropping `min n (length)` is dropping `n`. -/
theorem drop_min_length (l : List α) (n : Nat) : l.drop (min n l.length) = l.drop n := by
  rcases le_total n l.length with h | h
  · rw [min_eq_left h]
  · rw [min_eq_right h, List.drop_length, List.drop_eq_nil_of_le h]

/-- Chaining from the cursor of index `a` yields exactly the suffix after
`a`, given enough fuel. -/
theorem chain_from_some {α : Type} (items : List α) (F : Nat) (hF : 0 < F) :
    ∀ (fuel a : Nat), items.length ≤ a + 1 + fuel →
      forwardChainNodes items F (some (OpaqueCursor.new natToJsonBytes a)) fuel =
        items.drop (a + 1) := by
  intro fuel
  induction fuel with
  | zero =>
      intro a ha
      rw [forwardChainNodes]
      exact (List.drop_eq_nil_of_le (by omega)).symm
  | succ fuel ih =>
      intro a ha
      rw [forwardChainNodes]
      have hok := from_items_forward_ok items F (some a)
      simp only [Option.map_some'] at hok
      rw [hok]
      dsimp only
      rw [fromItemsCore_forward_end_cursor, fromItemsCore_forward_edges]
      dsimp only
      by_cases hempty : items.drop (a + 1) = []
      · rw [hempty, List.take_nil]
        simp [attachCursors]
      · have hlen : a + 1 < items.length := by
          have h2 : ¬ items.length ≤ a + 1 := fun hle => hempty (List.drop_eq_nil_of_le hle)
          omega
        have hkpos : 0 < ((items.drop (a + 1)).take F).length := by
          rw [List.length_take, List.length_drop]
          omega
        have hne : (items.drop (a + 1)).take F ≠ [] := List.length_pos.mp hkpos
        rw [if_neg (by simp [attachCursors_isEmpty, List.isEmpty_iff, hne])]
        rw [attachCursors_map_node, attachCursors_getLast_cursor _ _ hne]
        rw [show a + 1 + ((items.drop (a + 1)).take F).length - 1 =
          a + ((items.drop (a + 1)).take F).length from by omega]
        rw [ih (a + ((items.drop (a + 1)).take F).length) (by omega)]
        have hdd : items.drop (a + ((items.drop (a + 1)).take F).length + 1) =
            (items.drop (a + 1)).drop (((items.drop (a + 1)).take F).length) := by
          rw [List.drop_drop]
          congr 1
          omega
        rw [hdd, List.length_take, drop_min_length, List.take_append_drop]

set_option maxRecDepth 8000

/-! ## Claim theorems -/

/-- C1 counterexample: items `[0,1,2,3,4]`, `first = 1`, `after` the cursor
of index 2: the reference bounds give `end = 4 < 5 = length`, so the claim
predicts `has_next_page = true`, but `Page::from_items` returns `false`
(it compares `end` against the re-bound, post-slice `items_len`). -/
theorem c1_flags_counterexample :
    (Page.from_items [0, 1, 2, 3, 4]
        (.forward ⟨1, some (OpaqueCursor.new natToJsonBytes 2)⟩) :
      Except Err (Page Nat)).map (fun p => p.page_info.has_next_page) = .ok false ∧
    (refBounds 5 (some 2) none (some 1) none).map (fun w => decide (w.2.1 < 5)) =
      some true := by
  decide

/-- C1 (amended): for every call to `Page::from_items` whose cursors decode
to indices, `has_previous_page = (start > 0)` and
`has_next_page = (end < window)`, where `start`/`end` are the final window
bounds of the reference algorithm and `window` is the length of the
cursor-sliced window of its step 3 (not the full input length); the early
returns of steps 1-2 yield both flags false. -/
theorem c1_flags_amended {α : Type} (items : List α) :
    (∀ (f : Nat) (a : Option Nat),
      (Page.from_items items
          (.forward ⟨f, a.map (OpaqueCursor.new natToJsonBytes)⟩)).map
        (fun p => (p.page_info.has_previous_page, p.page_info.has_next_page)) =
      .ok (match refBounds items.length a none (some f) none with
           | none => (false, false)
           | some (s, e, w) => (decide (s > 0), decide (e < w)))) ∧
    (∀ (l : Nat) (b : Option Nat),
      (Page.from_items items
          (.backward ⟨l, b.map (OpaqueCursor.new natToJsonBytes)⟩)).map
        (fun p => (p.page_info.has_previous_page, p.page_info.has_next_page)) =
      .ok (match refBounds items.length none b none (some l) with
           | none => (false, false)
           | some (s, e, w) => (decide (s > 0), decide (e < w)))) := by
  constructor
  · intro f a
    rw [from_items_forward_ok]
    exact congrArg Except.ok (fromItemsCore_flags_forward items f a)
  · intro l b
    rw [from_items_backward_ok]
    exact congrArg Except.ok (fromItemsCore_flags_backward items l b)

/-- C3: for every finite input sequence and positive page size `F`,
repeatedly calling `Page::from_items` forward with `after` = the previous
page's last edge cursor (starting with no cursor, stopping at the first
empty page) concatenates to exactly the original sequence in order: the
pages are consecutive and non-overlapping with no gap or duplicate. -/
theorem c3_forward_partition {α : Type} (items : List α) (F : Nat) (hF : 0 < F) :
    forwardChainNodes items F none (items.length + 1) = items := by
  rw [forwardChainNodes]
  have hok := from_items_forward_ok items F none
  simp only [Option.map_none'] at hok
  rw [hok]
  dsimp only
  rw [fromItemsCore_forward_end_cursor, fromItemsCore_forward_edges]
  dsimp only
  rw [List.drop_zero]
  by_cases hempty : items = []
  · rw [hempty, List.take_nil]
    simp [attachCursors]
  · have hkpos : 0 < (items.take F).length := by
      rw [List.length_take]
      have := List.length_pos.mpr hempty
      omega
    have hne : items.take F ≠ [] := List.length_pos.mp hkpos
    rw [if_neg (by simp [attachCursors_isEmpty, List.isEmpty_iff, hne])]
    rw [attachCursors_map_node, attachCursors_getLast_cursor _ _ hne]
    rw [chain_from_some items F hF items.length (0 + (items.take F).length - 1) (by omega)]
    rw [show 0 + (items.take F).length - 1 + 1 = (items.take F).length from by omega]
    rw [List.length_take, drop_min_length, List.take_append_drop]

/-- Witness for C3 at three items and page size two. -/
theorem c3_forward_partition_witness :
    0 < 2 ∧ forwardChainNodes [10, 20, 30] 2 none 4 = [10, 20, 30] :=
  ⟨by decide, c3_forward_partition [10, 20, 30] 2 (by decide)⟩

/-- C4: for every serializable value `v` (any codec satisfying the value
codec contract: deterministic serialization whose bytes parse back, over
byte values), the cursor round trip `new → encode → decode → as_data` is the
identity. -/
theorem c4_cursor_round_trip {α : Type} (ser : α → List Nat)
    (de : List Nat → Option α) (v : α)
    (hrt : de (ser v) = some v) (hbytes : ∀ b ∈ ser v, b < 256) :
    (OpaqueCursor.decode (OpaqueCursor.encode (OpaqueCursor.new ser v))).bind
      (fun c => OpaqueCursor.as_data de c) = .ok v := by
  unfold OpaqueCursor.new OpaqueCursor.encode OpaqueCursor.decode
  rw [b64Decode_b64Encode _ hbytes]
  unfold OpaqueCursor.as_data
  simp only [Except.bind, hrt]

/-- Witness for C4 at the `usize` codec and `v = 42`. -/
theorem c4_cursor_round_trip_witness :
    (OpaqueCursor.decode (OpaqueCursor.encode (OpaqueCursor.new natToJsonBytes 42))).bind
      (fun c => OpaqueCursor.as_data jsonBytesToNat c) = .ok 42 :=
  c4_cursor_round_trip natToJsonBytes jsonBytesToNat 42 (by decide) (by decide)

/-- C5 counterexample: `first = 5, last = 5` together with the malformed
cursor string `"!"` yields `PageInvalidCursor`, not the rule-3 error
`PageFirstAndLast` the claim predicts, because `PageQuery::decode` decodes
cursors before applying rules 1-7. -/
theorem c5_rule_order_counterexample :
    PageQuery.decode (some 5) (some 5) (some [33]) none none none =
      .error (.page .pageInvalidCursor) ∧
    (Except.error (Err.page .pageInvalidCursor) : Except Err PageQuery) ≠
      .error (.page .pageFirstAndLast) := by
  decide

/-- C5 (amended): cursor decoding (rule 8) is applied first, not last: any
input carrying a malformed non-empty `after` cursor string — and any input
with well-formed (absent) `after` but a malformed non-empty `before` string
— fails with `PageInvalidCursor` regardless of which of rules 1-7 it also
violates. -/
theorem c5_cursor_decoding_first (first last : Option Nat)
    (before : Option (List Nat)) (default_limit max_page_size : Option Nat)
    (s : List Nat) (hne : s ≠ []) (hbad : b64Decode s = none) :
    PageQuery.decode first last (some s) before default_limit max_page_size =
      .error (.page .pageInvalidCursor) ∧
    PageQuery.decode first last none (some s) default_limit max_page_size =
      .error (.page .pageInvalidCursor) := by
  obtain ⟨x, xs, rfl⟩ := List.exists_cons_of_ne_nil hne
  simp [PageQuery.decode, OpaqueCursor.decode, Option.filter, hbad, Except.map,
    bind, Except.bind, pure, Except.pure]

/-- Witness for C5 (amended) at `first = 5, last = 5, after = "!"`. -/
theorem c5_cursor_decoding_first_witness :
    PageQuery.decode (some 5) (some 5) (some [33]) none none none =
      .error (.page .pageInvalidCursor) :=
  (c5_cursor_decoding_first (some 5) (some 5) none none none [33]
    (by decide) (by decide)).1

/-- C6: `PageQuery::new` with a configured `max_page_size = 3` and
`first = 5` fails with `PageExceedsLimit{field: "first", max: 3}` exactly as
the claim states, but that error kind is not among the variants the
`PaginationErrorCode` enum in `error.rs` declares: the code contradicts
itself (the constructed variant does not exist in the enum). -/
theorem c6_exceeds_limit_not_declared :
    PageQuery.new (some 5) none none none none (some 3) =
      .error (.page (.pageExceedsLimit "first" 3)) ∧
    (PageErrorCode.pageExceedsLimit "first" 3).variantName ∉ errorRsVariants := by
  decide

/-- C8 counterexample: `Page::from_items` does set `total_items` (to the
full input length), so the in-memory operation does not leave it unset. -/
theorem c8_total_items_counterexample :
    (Page.from_items [0] (.forward ⟨1, none⟩) : Except Err (Page Nat)).map
      (·.total_items) = .ok (some 1) ∧
    (Except.ok (some 1) : Except Err (Option Nat)) ≠ .ok none := by
  decide

/-- C8 (amended): the query-backed assembly never sets `total_items` (it is
`None` unless the caller supplies it via `with_total_items`), while
`Page::from_items` sets it to the full input length. -/
theorem c8_total_items_amended :
    (∀ (rows : List Nat) (limit : Nat) (backward : Bool)
        (ser : Nat → List Nat) (gen : Nat → Nat),
      (sqlxAssemble rows limit backward ser gen).total_items = none) ∧
    (∀ (items : List Nat) (q : PageQuery) (p : Page Nat),
      Page.from_items items q = .ok p → p.total_items = some items.length) :=
  ⟨fun _ _ _ _ _ => rfl, fun items q p h => from_items_total_items items q p h⟩

/-- Witness for C8 (amended) at a singleton batch and a singleton
`from_items` page. -/
theorem c8_total_items_amended_witness :
    (sqlxAssemble [5] 1 false natToJsonBytes id).total_items = none ∧
    (fromItemsCore [0] (some 1) none none none).total_items = some (List.length [0]) :=
  ⟨c8_total_items_amended.1 [5] 1 false natToJsonBytes id,
   c8_total_items_amended.2 [0] (.forward ⟨1, none⟩)
     (fromItemsCore [0] (some 1) none none none) (by decide)⟩

/-- C9 counterexample: the token `"MQ"` decodes to the cursor payload `"1"`,
whose shape is wrong for a two-column spec; `as_data` at the pair type
classifies it as the client-input error `PageInvalidCursor` (a bad-request
pagination code), not as an internal error as the claim states. -/
theorem c9_wrong_arity_counterexample :
    OpaqueCursor.decode [77, 81] = .ok ⟨[49]⟩ ∧
    OpaqueCursor.as_data jsonBytesToNatPair ⟨[49]⟩ =
      .error (.page .pageInvalidCursor) ∧
    (Err.page .pageInvalidCursor).isInternal = false := by
  decide

/-- C9 (amended): a cursor that decodes as a token but whose payload fails
expected-type deserialization yields the bad-request error
`PageInvalidCursor`, the same classification as a malformed token, not an
internal error. -/
theorem c9_wrong_arity_bad_request {α : Type} (de : List Nat → Option α)
    (c : OpaqueCursor) (h : de c.bytes = none) :
    OpaqueCursor.as_data de c = .error (.page .pageInvalidCursor) ∧
    (Err.page .pageInvalidCursor).isInternal = false := by
  unfold OpaqueCursor.as_data
  rw [h]
  exact ⟨rfl, rfl⟩

/-- Witness for C9 (amended) at the pair deserializer and the payload
`"1"`. -/
theorem c9_wrong_arity_bad_request_witness :
    OpaqueCursor.as_data jsonBytesToNatPair ⟨[49]⟩ =
      .error (.page .pageInvalidCursor) :=
  (c9_wrong_arity_bad_request jsonBytesToNatPair ⟨[49]⟩ (by decide)).1

/-- C10: an empty `after` or `before` string handed to `PageQuery::decode`
is filtered out before cursor decoding, so decoding behaves exactly as if
the argument were absent (hence never `PageInvalidCursor`, and no cursor on
that side of the result). -/
theorem c10_empty_cursor_treated_as_absent (first last : Option Nat)
    (after before : Option (List Nat)) (default_limit max_page_size : Option Nat) :
    PageQuery.decode first last (some []) before default_limit max_page_size =
      PageQuery.decode first last none before default_limit max_page_size ∧
    PageQuery.decode first last after (some []) default_limit max_page_size =
      PageQuery.decode first last after none default_limit max_page_size := by
  exact ⟨rfl, rfl⟩

/-- C2: columns `[name asc, id desc]`, `first = 10`, `extra_row = true`, a
symbolic `after` tuple and one pre-existing argument synthesize (case B) the
filtered subquery with WHERE `"name" > $3 OR ("name" = $3 AND "id" < $4)`,
natural ORDER BY, `LIMIT $2` (the limit argument's own position), and the
positional argument list `[existing, limit, after.0, after.1]` in exactly
that order, the limit argument evaluating to `11`. -/
theorem c2_case_b_literal_scenario (q : String) (e a : RExpr) :
    r_impl ⟨q, [e], true, [("name", true), ("id", false)], some (.intLit 10), none,
      some a, none⟩ =
    some ("SELECT * FROM (" ++ q ++ ") as q WHERE " ++
      "\"name\" > $3 OR (\"name\" = $3 AND \"id\" < $4)" ++ " ORDER BY " ++
      "\"name\" ASC, \"id\" DESC" ++ " LIMIT $" ++ "2",
      [e, .plusOneI64 (.intLit 10), .tupleField a 0, .tupleField a 1]) ∧
    evalIntRExpr (.plusOneI64 (.intLit 10)) = some 11 := by
  constructor
  · with_unfolding_all rfl
  · rfl

/-- Rendering the columns reversed is rendering the direction-flipped
columns naturally. -/
theorem columns_to_str_flip (columns : List (String × Bool)) :
    columns_to_str columns true =
      columns_to_str (columns.map fun c => (c.1, !c.2)) false := by
  unfold columns_to_str
  rw [List.map_map]
  rfl

/-- C7: for backward pagination with no `before` cursor (case C), the
synthesized query is the base query ordered by all column directions
flipped with `LIMIT` bound to `L`'s own placeholder, wrapped as a subquery
re-ordered by the natural directions with no outer limit, and the argument
list is the existing arguments followed by `L`. -/
theorem c7_case_c_shape (q : String) (args : List RExpr)
    (columns : List (String × Bool)) (extra_row : Bool) (lastE : RExpr) :
    r_impl ⟨q, args, extra_row, columns, none, some lastE, none, none⟩ =
      some (specCaseC q args columns extra_row lastE) := by
  unfold r_impl specCaseC
  rw [columns_to_str_flip]

end GraphqlStarter
